import Mathlib

/-!
Formal model of the assets-exchange transaction engine.

The definitions below are a shallow embedding of the Rust sources:
  * `src/transaction.rs` — transaction records and the 4-decimal amount
    normalisation (`serde_amount`);
  * `src/account.rs`     — the per-client account state machine
    (`Account::apply`, `Account::save_tx`, `Account::handle_disputes`);
  * `src/main.rs`        — the ledger `Service` dispatch layer
    (`Service::apply`, lazy account creation).

Monetary amounts (`f64` in the source, normalised to 4 decimal digits at
every boundary) are modelled as exact rationals `ℚ`; the boundary
truncation / rounding of `serde_amount` is modelled explicitly on `ℚ`.
The `HashMap`s are modelled as association lists with unique keys
(`lookupTx` / `updateTx` / `insertAccount` mirror `get`, `get_mut` and
`entry().or_insert()`).  A Rust `unreachable!()` panic is modelled as the
`none` outcome of an `Option`-valued step function.
-/

namespace AssetsExchange

/-- Client identifier (`u16` in the source; identifiers are only compared
for equality, so `Nat` is a faithful model). -/
abbrev ClientId := Nat

/-- Transaction identifier (`u32` in the source). -/
abbrev TransactionId := Nat

/-- Monetary amount: `f64` normalised to 4 decimal digits in the source,
modelled as an exact rational. -/
abbrev Amount := ℚ

/-- Possible types of transactions (`TransactionType` in `src/transaction.rs`). -/
inductive TransactionType where
  | deposit
  | withdrawal
  | dispute
  | resolve
  | chargeback
  deriving DecidableEq, Repr

/-- Model of a single transaction (`Transaction` in `src/transaction.rs`). -/
structure Transaction where
  type : TransactionType
  client : ClientId
  tx : TransactionId
  amount : Amount
  deriving DecidableEq, Repr

/-- Possible errors when applying a transaction
(`TransactionError` in `src/account.rs`). -/
inductive TransactionError where
  | UnsufficientFunds (tx : Transaction)
  | AccountLocked
  | AlreadyDisputed (id : TransactionId)
  | NotDisputed (id : TransactionId)
  | NotFound (id : TransactionId)
  | AlreadyExist (id : TransactionId)
  deriving DecidableEq, Repr

/-- Result of applying a transaction: `Result<(), TransactionError>`
in the source (`TransactionResult<()>`). -/
inductive TxResult where
  | ok
  | error (e : TransactionError)
  deriving DecidableEq, Repr

/-- Wrapper for a stored transaction that remembers whether there is an
open dispute (`DisputableTransaction` in `src/account.rs`). -/
structure DisputableTransaction where
  transaction : Transaction
  disputed : Bool
  deriving DecidableEq, Repr

/-- Model of a user account (`Account` in `src/account.rs`); the
`HashMap<TransactionId, DisputableTransaction>` history is modelled as an
association list. -/
structure Account where
  id : ClientId
  available : Amount
  held : Amount
  total : Amount
  locked : Bool
  tx_history : List (TransactionId × DisputableTransaction)
  deriving DecidableEq, Repr

/-- Lookup in the transaction-history association list
(models `HashMap::get` / `get_mut` on keys inserted at most once). -/
def lookupTx : List (TransactionId × DisputableTransaction) → TransactionId →
    Option DisputableTransaction
  | [], _ => none
  | (k, d) :: rest, key => if k = key then some d else lookupTx rest key

/-- Overwrite the entry stored under `key` (models mutation through
`HashMap::get_mut`). -/
def updateTx (l : List (TransactionId × DisputableTransaction)) (key : TransactionId)
    (d : DisputableTransaction) : List (TransactionId × DisputableTransaction) :=
  l.map fun p => if p.1 = key then (key, d) else p

/-- Account assigned to `client_id` with zero balances
(`Account::new` in `src/account.rs`, via `Default`). -/
def Account.new (client_id : ClientId) : Account :=
  { id := client_id, available := 0, held := 0, total := 0,
    locked := false, tx_history := [] }

/-- Put a transaction into `tx_history` (`Account::save_tx` in
`src/account.rs`): fails with `AlreadyExist` when the id is present. -/
def Account.save_tx (a : Account) (tx : Transaction) : TxResult × Account :=
  if (lookupTx a.tx_history tx.tx).isSome then
    (.error (.AlreadyExist tx.tx), a)
  else
    (.ok, { a with tx_history := (tx.tx, ⟨tx, false⟩) :: a.tx_history })

/-- Handle disputing, resolving and charging back deposits and withdrawals
(`Account::handle_disputes` in `src/account.rs`).  The `unreachable!()`
arms of the source are modelled as `none`. -/
def Account.handle_disputes (a : Account) (current_tx : Transaction) :
    Option (TxResult × Account) :=
  match lookupTx a.tx_history current_tx.tx with
  | none => some (.error (.NotFound current_tx.tx), a)
  | some dtx =>
    match dtx.disputed, current_tx.type with
    | true, .dispute => some (.error (.AlreadyDisputed current_tx.tx), a)
    | false, .resolve => some (.error (.NotDisputed current_tx.tx), a)
    | false, .chargeback => some (.error (.NotDisputed current_tx.tx), a)
    | _, _ =>
      match dtx.transaction.type, current_tx.type with
      | .deposit, .dispute =>
        if a.available < dtx.transaction.amount then
          some (.error (.UnsufficientFunds current_tx), a)
        else
          some (.ok, { a with
            available := a.available - dtx.transaction.amount,
            held := a.held + dtx.transaction.amount,
            tx_history := updateTx a.tx_history current_tx.tx { dtx with disputed := true } })
      | .deposit, .resolve =>
        some (.ok, { a with
          available := a.available + dtx.transaction.amount,
          held := a.held - dtx.transaction.amount,
          tx_history := updateTx a.tx_history current_tx.tx { dtx with disputed := false } })
      | .deposit, .chargeback =>
        some (.ok, { a with
          total := a.total - dtx.transaction.amount,
          held := a.held - dtx.transaction.amount,
          locked := true })
      | .withdrawal, .dispute =>
        some (.ok, { a with
          total := a.total + dtx.transaction.amount,
          held := a.held + dtx.transaction.amount,
          tx_history := updateTx a.tx_history current_tx.tx { dtx with disputed := true } })
      | .withdrawal, .resolve =>
        some (.ok, { a with
          total := a.total - dtx.transaction.amount,
          held := a.held - dtx.transaction.amount,
          tx_history := updateTx a.tx_history current_tx.tx { dtx with disputed := false } })
      | .withdrawal, .chargeback =>
        some (.ok, { a with
          available := a.available + dtx.transaction.amount,
          held := a.held - dtx.transaction.amount,
          locked := true })
      | _, _ => none

/-- Try to apply a transaction on a user account
(`Account::apply` in `src/account.rs`). -/
def Account.apply (a : Account) (tx : Transaction) : Option (TxResult × Account) :=
  if a.locked then
    some (.error .AccountLocked, a)
  else
    match tx.type with
    | .deposit =>
      some (Account.save_tx
        { a with available := a.available + tx.amount, total := a.total + tx.amount } tx)
    | .withdrawal =>
      if a.available ≥ tx.amount then
        some (Account.save_tx
          { a with available := a.available - tx.amount, total := a.total - tx.amount } tx)
      else
        some (.error (.UnsufficientFunds tx), a)
    | _ => a.handle_disputes tx

/-- Apply a finite sequence of transactions in order, starting from `a`;
`none` when some step panics. -/
def Account.applyAll (a : Account) : List Transaction → Option Account
  | [] => some a
  | tx :: rest =>
    match a.apply tx with
    | none => none
    | some (_, a1) => a1.applyAll rest

/-- The ledger service: mapping from client identifier to account
(`Service` in `src/main.rs`), modelled as an association list. -/
structure Service where
  accounts : List (ClientId × Account)
  deriving DecidableEq, Repr

/-- Lookup in the accounts map (models `HashMap::get`). -/
def lookupAccount : List (ClientId × Account) → ClientId → Option Account
  | [], _ => none
  | (c, a) :: rest, key => if c = key then some a else lookupAccount rest key

/-- Insert-or-replace in the accounts map (models the mutation performed
through `HashMap::entry`). -/
def insertAccount : List (ClientId × Account) → ClientId → Account →
    List (ClientId × Account)
  | [], key, a => [(key, a)]
  | (c, b) :: rest, key, a =>
    if c = key then (key, a) :: rest else (c, b) :: insertAccount rest key a

/-- The empty service (`Service::new` in `src/main.rs`). -/
def Service.new : Service := ⟨[]⟩

/-- Route a transaction to the account of `tx.client`, creating it with
`Account.new` when absent, and delegate to `Account.apply`
(`Service::apply` in `src/main.rs`:
`self.accounts.entry(tx.client).or_insert(Account::new(tx.client)).apply(tx)`);
the account-level result is returned to the caller unchanged. -/
def Service.apply (s : Service) (tx : Transaction) : Option (TxResult × Service) :=
  match ((lookupAccount s.accounts tx.client).getD (Account.new tx.client)).apply tx with
  | none => none
  | some (r, a1) => some (r, ⟨insertAccount s.accounts tx.client a1⟩)

/-- Truncation toward zero of a rational to an integer, the model of
`f64::trunc` in `serde_amount::deserialize`. -/
def truncQ (q : ℚ) : ℤ := if 0 ≤ q then ⌊q⌋ else ⌈q⌉

/-- Rounding to the nearest integer with half-way cases away from zero,
the model of `f64::round` in `serde_amount::serialize`. -/
def roundHalfAwayQ (q : ℚ) : ℤ := if 0 ≤ q then ⌊q + 1 / 2⌋ else ⌈q - 1 / 2⌉

/-- Amount deserialisation (`serde_amount::deserialize` in
`src/transaction.rs`): truncate toward zero to 4 decimal places,
`(val * factor).trunc() / factor` with `factor = 10^4`. -/
def serde_amount.deserialize (val : ℚ) : ℚ := (truncQ (val * 10000) : ℚ) / 10000

/-- Amount serialisation (`serde_amount::serialize` in
`src/transaction.rs`): round to 4 decimal places,
`(val * factor).round() / factor` with `factor = 10^4`. -/
def serde_amount.serialize (val : ℚ) : ℚ := (roundHalfAwayQ (val * 10000) : ℚ) / 10000

/-! Helper lemmas about the association-list maps. -/

/-- A successful lookup returns an entry of the list. -/
theorem lookupTx_mem {l : List (TransactionId × DisputableTransaction)}
    {key : TransactionId} {d : DisputableTransaction}
    (h : lookupTx l key = some d) : (key, d) ∈ l := by
  induction l with
  | nil => simp [lookupTx] at h
  | cons p rest ih =>
    obtain ⟨k', d'⟩ := p
    simp only [lookupTx] at h
    split at h
    · rename_i hk
      injection h with h
      subst hk; subst h
      exact List.mem_cons_self _ _
    · exact List.mem_cons_of_mem _ (ih h)

/-- Every entry of an updated history is an old entry or the new one. -/
theorem mem_updateTx {l : List (TransactionId × DisputableTransaction)}
    {key : TransactionId} {d : DisputableTransaction}
    {p : TransactionId × DisputableTransaction}
    (h : p ∈ updateTx l key d) : p ∈ l ∨ p = (key, d) := by
  unfold updateTx at h
  obtain ⟨q, hq, hfq⟩ := List.mem_map.mp h
  by_cases hk : q.1 = key
  · right; rw [if_pos hk] at hfq; exact hfq.symm
  · left; rw [if_neg hk] at hfq; exact hfq ▸ hq

/-- Looking up the key just inserted finds the inserted account. -/
theorem lookupAccount_insertAccount {l : List (ClientId × Account)}
    {key : ClientId} {a : Account} :
    lookupAccount (insertAccount l key a) key = some a := by
  induction l with
  | nil => simp [insertAccount, lookupAccount]
  | cons p rest ih =>
    obtain ⟨c, b⟩ := p
    by_cases hc : c = key
    · simp [insertAccount, hc, lookupAccount]
    · simp [insertAccount, hc, lookupAccount, ih]

/-! Step lemmas about a single `Account.apply` call. -/

/-- One `Account.apply` step preserves `total = available + held`
(on the success path and on every error path). -/
theorem apply_preserves_sum {a : Account} {tx : Transaction} {r : TxResult} {a' : Account}
    (h : a.apply tx = some (r, a')) (hs : a.total = a.available + a.held) :
    a'.total = a'.available + a'.held := by
  unfold Account.apply Account.handle_disputes Account.save_tx at h
  repeat' split at h
  all_goals try exact Option.noConfusion h
  all_goals
    simp only [Option.some.injEq, Prod.mk.injEq] at h
  all_goals
    obtain ⟨-, h2⟩ := h
  all_goals
    subst h2
  all_goals
    simp only [hs]
  all_goals ring

/-- One `Account.apply` step keeps `available` non-negative and every
stored history amount non-negative, provided the incoming amount is
non-negative: every decrease of `available` in the source is guarded by a
sufficient-funds check. -/
theorem apply_preserves_nonneg {a : Account} {tx : Transaction} {r : TxResult} {a' : Account}
    (h : a.apply tx = some (r, a')) (h0 : 0 ≤ tx.amount) (hav : 0 ≤ a.available)
    (hhist : ∀ p ∈ a.tx_history, 0 ≤ p.2.transaction.amount) :
    0 ≤ a'.available ∧ ∀ p ∈ a'.tx_history, 0 ≤ p.2.transaction.amount := by
  unfold Account.apply Account.handle_disputes Account.save_tx at h
  repeat' split at h
  all_goals try exact Option.noConfusion h
  all_goals simp only [Option.some.injEq, Prod.mk.injEq] at h
  all_goals obtain ⟨-, h2⟩ := h
  all_goals subst h2
  all_goals try have hd := hhist _ (lookupTx_mem (by assumption))
  all_goals refine ⟨by try dsimp only
                       linarith, ?_⟩
  all_goals intro p hp
  all_goals
    first
      | exact hhist p hp
      | (rcases List.mem_cons.mp hp with rfl | hp1
         · exact h0
         · exact hhist _ hp1)
      | (rcases mem_updateTx hp with hp1 | rfl
         · exact hhist _ hp1
         · exact hd)

/-- Applying a sequence of transactions preserves `total = available + held`. -/
theorem applyAll_sum {txs : List Transaction} :
    ∀ {a b : Account}, a.applyAll txs = some b →
      a.total = a.available + a.held → b.total = b.available + b.held := by
  induction txs with
  | nil =>
    intro a b h hs
    injection h with h
    subst h
    exact hs
  | cons tx rest ih =>
    intro a b h hs
    unfold Account.applyAll at h
    rcases happ : a.apply tx with _ | ⟨r, a1⟩
    · rw [happ] at h; exact Option.noConfusion h
    · rw [happ] at h
      exact ih h (apply_preserves_sum happ hs)

/-- Applying a sequence of non-negative-amount transactions keeps
`available` (and every stored amount) non-negative. -/
theorem applyAll_nonneg {txs : List Transaction} :
    ∀ {a b : Account}, (∀ tx ∈ txs, 0 ≤ tx.amount) → a.applyAll txs = some b →
      0 ≤ a.available → (∀ p ∈ a.tx_history, 0 ≤ p.2.transaction.amount) →
      0 ≤ b.available ∧ ∀ p ∈ b.tx_history, 0 ≤ p.2.transaction.amount := by
  induction txs with
  | nil =>
    intro a b _ h hav hhist
    injection h with h
    subst h
    exact ⟨hav, hhist⟩
  | cons tx rest ih =>
    intro a b hpos h hav hhist
    unfold Account.applyAll at h
    rcases happ : a.apply tx with _ | ⟨r, a1⟩
    · rw [happ] at h; exact Option.noConfusion h
    · rw [happ] at h
      obtain ⟨hav1, hhist1⟩ :=
        apply_preserves_nonneg happ (hpos tx (List.mem_cons_self _ _)) hav hhist
      exact ih (fun t ht => hpos t (List.mem_cons_of_mem _ ht)) h hav1 hhist1

/-! Claim theorems. -/

/-- C1: for every account starting from `Account.new` (all balances zero)
and every finite sequence of transactions applied via `Account.apply`,
after each apply call (in particular after each one that returns `Ok`)
the equation `total = available + held` holds. -/
theorem C1_sum_invariant (c : ClientId) (txs : List Transaction) (a : Account)
    (h : (Account.new c).applyAll txs = some a) :
    a.total = a.available + a.held :=
  applyAll_sum h (by simp [Account.new])

/-- Concrete run used by the C1 witness: a deposit of 5 followed by a
dispute of that deposit. -/
def c1Txs : List Transaction := [⟨.deposit, 1, 1, 5⟩, ⟨.dispute, 1, 1, 0⟩]

/-- Final account state of the C1 witness run. -/
def c1Account : Account := ⟨1, 0, 5, 5, false, [(1, ⟨⟨.deposit, 1, 1, 5⟩, true⟩)]⟩

/-- Witness for C1 at a concrete input. -/
theorem C1_sum_invariant_witness :
    (Account.new 1).applyAll c1Txs = some c1Account ∧
    c1Account.total = c1Account.available + c1Account.held :=
  ⟨by norm_num [c1Txs, c1Account, Account.applyAll, Account.apply, Account.handle_disputes,
      Account.save_tx, lookupTx, updateTx, Account.new],
   C1_sum_invariant 1 c1Txs c1Account
    (by norm_num [c1Txs, c1Account, Account.applyAll, Account.apply, Account.handle_disputes,
      Account.save_tx, lookupTx, updateTx, Account.new])⟩

/-- C10: for every account starting from `Account.new` and every sequence
of transactions whose amounts are all non-negative, after every
`Account.apply` call (successful or not) `available ≥ 0`: every operation
that decreases `available` (withdrawal, dispute of a stored deposit) is
guarded by a check that `available` covers the subtracted amount. -/
theorem C10_available_nonneg (c : ClientId) (txs : List Transaction) (a : Account)
    (hpos : ∀ tx ∈ txs, 0 ≤ tx.amount)
    (h : (Account.new c).applyAll txs = some a) :
    0 ≤ a.available :=
  (applyAll_nonneg hpos h (by simp [Account.new]) (by simp [Account.new])).1

/-- Concrete run used by the C10 witness: deposit 5, withdraw 3,
then an insufficient withdrawal of 4 (rejected). -/
def c10Txs : List Transaction :=
  [⟨.deposit, 1, 1, 5⟩, ⟨.withdrawal, 1, 2, 3⟩, ⟨.withdrawal, 1, 3, 4⟩]

/-- Final account state of the C10 witness run. -/
def c10Account : Account :=
  ⟨1, 2, 0, 2, false,
    [(2, ⟨⟨.withdrawal, 1, 2, 3⟩, false⟩), (1, ⟨⟨.deposit, 1, 1, 5⟩, false⟩)]⟩

/-- Witness for C10 at a concrete input. -/
theorem C10_available_nonneg_witness :
    (∀ tx ∈ c10Txs, 0 ≤ tx.amount) ∧
    (Account.new 1).applyAll c10Txs = some c10Account ∧
    0 ≤ c10Account.available :=
  ⟨by simp only [c10Txs, List.forall_mem_cons, List.forall_mem_nil]; norm_num,
   by norm_num [c10Txs, c10Account, Account.applyAll, Account.apply, Account.handle_disputes,
      Account.save_tx, lookupTx, updateTx, Account.new],
   C10_available_nonneg 1 c10Txs c10Account
    (by simp only [c10Txs, List.forall_mem_cons, List.forall_mem_nil]; norm_num)
    (by norm_num [c10Txs, c10Account, Account.applyAll, Account.apply, Account.handle_disputes,
      Account.save_tx, lookupTx, updateTx, Account.new])⟩

/-- C2: once an account's `locked` flag is true, every `Account.apply`
call, of any transaction type, returns `AccountLocked` and leaves the
whole account (balances and history) unchanged; and any successful
chargeback (on either stored transaction type) sets `locked := true`. -/
theorem C2_locked_rejects_everything (a b : Account) (tx ctx : Transaction) (b' : Account) :
    (a.locked = true → a.apply tx = some (.error .AccountLocked, a)) ∧
    (∀ txs : List Transaction, a.locked = true → a.applyAll txs = some a) ∧
    (ctx.type = .chargeback → b.apply ctx = some (.ok, b') → b'.locked = true) := by
  have hstep : ∀ (c : Account) (t : Transaction), c.locked = true →
      c.apply t = some (.error .AccountLocked, c) := by
    intro c t hl
    unfold Account.apply
    simp [hl]
  refine ⟨hstep a tx, ?_, ?_⟩
  · intro txs hl
    induction txs with
    | nil => rfl
    | cons t rest ih =>
      unfold Account.applyAll
      rw [hstep a t hl]
      exact ih
  · intro hc happ
    unfold Account.apply Account.handle_disputes Account.save_tx at happ
    repeat' split at happ
    all_goals try exact Option.noConfusion happ
    all_goals simp only [Option.some.injEq, Prod.mk.injEq] at happ
    all_goals obtain ⟨h1, h2⟩ := happ
    all_goals
      first
        | (subst h2; rfl)
        | simp_all

/-- The locked account used by the C2 witness. -/
def c2Locked : Account := ⟨1, 3, 1, 4, true, []⟩

/-- An account with a disputed withdrawal, used by the C2 witness. -/
def c2Disputed : Account := ⟨1, 0, 5, 5, false, [(0, ⟨⟨.withdrawal, 1, 0, 5⟩, true⟩)]⟩

/-- The C2 witness account after the chargeback. -/
def c2After : Account := ⟨1, 5, 0, 5, true, [(0, ⟨⟨.withdrawal, 1, 0, 5⟩, true⟩)]⟩

/-- Witness for C2 at concrete inputs. -/
theorem C2_locked_rejects_everything_witness :
    c2Locked.apply ⟨.deposit, 1, 9, 7⟩ = some (.error .AccountLocked, c2Locked) ∧
    c2Locked.applyAll [⟨.deposit, 1, 9, 7⟩, ⟨.dispute, 1, 0, 0⟩] = some c2Locked ∧
    c2After.locked = true :=
  ⟨(C2_locked_rejects_everything c2Locked c2Disputed ⟨.deposit, 1, 9, 7⟩
      ⟨.chargeback, 1, 0, 0⟩ c2After).1 rfl,
   (C2_locked_rejects_everything c2Locked c2Disputed ⟨.deposit, 1, 9, 7⟩
      ⟨.chargeback, 1, 0, 0⟩ c2After).2.1 [⟨.deposit, 1, 9, 7⟩, ⟨.dispute, 1, 0, 0⟩] rfl,
   (C2_locked_rejects_everything c2Locked c2Disputed ⟨.deposit, 1, 9, 7⟩
      ⟨.chargeback, 1, 0, 0⟩ c2After).2.2 rfl
    (by norm_num [c2Disputed, c2After, Account.apply, Account.handle_disputes, lookupTx])⟩

/-- C3: for a stored withdrawal of amount `amt`, a successful dispute adds
`amt` to `total` and `held` and leaves `available` unchanged, setting
`disputed := true`; a successful resolve subtracts `amt` from `total` and
`held` and leaves `available` unchanged, setting `disputed := false`; a
successful chargeback adds `amt` to `available`, subtracts `amt` from
`held`, leaves `total` unchanged and locks the account. -/
theorem C3_stored_withdrawal_dispute_semantics :
    (∀ (a : Account) (w ctx : Transaction), a.locked = false → ctx.type = .dispute →
      lookupTx a.tx_history ctx.tx = some ⟨w, false⟩ → w.type = .withdrawal →
      a.apply ctx = some (.ok, { a with
        total := a.total + w.amount, held := a.held + w.amount,
        tx_history := updateTx a.tx_history ctx.tx ⟨w, true⟩ })) ∧
    (∀ (a : Account) (w ctx : Transaction), a.locked = false → ctx.type = .resolve →
      lookupTx a.tx_history ctx.tx = some ⟨w, true⟩ → w.type = .withdrawal →
      a.apply ctx = some (.ok, { a with
        total := a.total - w.amount, held := a.held - w.amount,
        tx_history := updateTx a.tx_history ctx.tx ⟨w, false⟩ })) ∧
    (∀ (a : Account) (w ctx : Transaction), a.locked = false → ctx.type = .chargeback →
      lookupTx a.tx_history ctx.tx = some ⟨w, true⟩ → w.type = .withdrawal →
      a.apply ctx = some (.ok, { a with
        available := a.available + w.amount, held := a.held - w.amount, locked := true })) := by
  refine ⟨?_, ?_, ?_⟩ <;>
    (intro a w ctx hl hct hh hw
     simp [Account.apply, Account.handle_disputes, hl, hct, hh, hw])

/-- The stored withdrawal used by the C3 witness. -/
def c3W : Transaction := ⟨.withdrawal, 1, 0, 5⟩

/-- Account directly after the C3 witness withdrawal. -/
def c3A : Account := ⟨1, 0, 0, 0, false, [(0, ⟨c3W, false⟩)]⟩

/-- Account after disputing the C3 witness withdrawal. -/
def c3B : Account := ⟨1, 0, 5, 5, false, [(0, ⟨c3W, true⟩)]⟩

/-- Witness for C3 at concrete inputs. -/
theorem C3_stored_withdrawal_dispute_semantics_witness :
    c3A.apply ⟨.dispute, 1, 0, 0⟩ = some (.ok, { c3A with
      total := c3A.total + c3W.amount, held := c3A.held + c3W.amount,
      tx_history := updateTx c3A.tx_history 0 ⟨c3W, true⟩ }) ∧
    c3B.apply ⟨.resolve, 1, 0, 0⟩ = some (.ok, { c3B with
      total := c3B.total - c3W.amount, held := c3B.held - c3W.amount,
      tx_history := updateTx c3B.tx_history 0 ⟨c3W, false⟩ }) ∧
    c3B.apply ⟨.chargeback, 1, 0, 0⟩ = some (.ok, { c3B with
      available := c3B.available + c3W.amount, held := c3B.held - c3W.amount,
      locked := true }) :=
  ⟨C3_stored_withdrawal_dispute_semantics.1 c3A c3W ⟨.dispute, 1, 0, 0⟩ rfl rfl rfl rfl,
   C3_stored_withdrawal_dispute_semantics.2.1 c3B c3W ⟨.resolve, 1, 0, 0⟩ rfl rfl rfl rfl,
   C3_stored_withdrawal_dispute_semantics.2.2 c3B c3W ⟨.chargeback, 1, 0, 0⟩ rfl rfl rfl rfl⟩

/-- C4: disputing a stored deposit of amount `amt` on an unlocked account
fails with `UnsufficientFunds` and changes nothing (not even the disputed
flag) when `available < amt`; otherwise it moves `amt` from `available`
to `held`, leaves `total` unchanged and sets the entry's `disputed` flag. -/
theorem C4_dispute_deposit_semantics :
    (∀ (a : Account) (dep ctx : Transaction), a.locked = false → ctx.type = .dispute →
      lookupTx a.tx_history ctx.tx = some ⟨dep, false⟩ → dep.type = .deposit →
      a.available < dep.amount →
      a.apply ctx = some (.error (.UnsufficientFunds ctx), a)) ∧
    (∀ (a : Account) (dep ctx : Transaction), a.locked = false → ctx.type = .dispute →
      lookupTx a.tx_history ctx.tx = some ⟨dep, false⟩ → dep.type = .deposit →
      dep.amount ≤ a.available →
      a.apply ctx = some (.ok, { a with
        available := a.available - dep.amount, held := a.held + dep.amount,
        tx_history := updateTx a.tx_history ctx.tx ⟨dep, true⟩ })) := by
  constructor
  · intro a dep ctx hl hct hh hdep hlt
    simp [Account.apply, Account.handle_disputes, hl, hct, hh, hdep, hlt]
  · intro a dep ctx hl hct hh hdep hle
    simp [Account.apply, Account.handle_disputes, hl, hct, hh, hdep, not_lt.mpr hle]

/-- The C4 witness account after deposit 5 (tx 0) and withdrawal 4 (tx 1):
`available = 1` is below the disputed deposit's amount 5. -/
def c4A : Account :=
  ⟨1, 1, 0, 1, false,
    [(1, ⟨⟨.withdrawal, 1, 1, 4⟩, false⟩), (0, ⟨⟨.deposit, 1, 0, 5⟩, false⟩)]⟩

/-- The C4 witness account holding an undisputed deposit of 5 with
sufficient available funds. -/
def c4B : Account := ⟨1, 5, 0, 5, false, [(0, ⟨⟨.deposit, 1, 0, 5⟩, false⟩)]⟩

/-- Witness for C4 at concrete inputs. -/
theorem C4_dispute_deposit_semantics_witness :
    c4A.apply ⟨.dispute, 1, 0, 0⟩ =
      some (.error (.UnsufficientFunds ⟨.dispute, 1, 0, 0⟩), c4A) ∧
    c4B.apply ⟨.dispute, 1, 0, 0⟩ = some (.ok, { c4B with
      available := c4B.available - (5 : ℚ), held := c4B.held + (5 : ℚ),
      tx_history := updateTx c4B.tx_history 0 ⟨⟨.deposit, 1, 0, 5⟩, true⟩ }) :=
  ⟨C4_dispute_deposit_semantics.1 c4A ⟨.deposit, 1, 0, 5⟩ ⟨.dispute, 1, 0, 0⟩
      rfl rfl rfl rfl (by norm_num [c4A]),
   C4_dispute_deposit_semantics.2 c4B ⟨.deposit, 1, 0, 5⟩ ⟨.dispute, 1, 0, 0⟩
      rfl rfl rfl rfl (by norm_num [c4B])⟩

/-- C5: for a dispute, resolve or chargeback on an unlocked account:
a missing history entry fails with `NotFound(tx.tx)`; disputing an
already-disputed entry fails with `AlreadyDisputed(tx.tx)`; resolving or
charging back a non-disputed entry fails with `NotDisputed(tx.tx)`;
in each failure the account is returned unchanged. -/
theorem C5_dispute_reference_errors :
    (∀ (a : Account) (ctx : Transaction), a.locked = false →
      (ctx.type = .dispute ∨ ctx.type = .resolve ∨ ctx.type = .chargeback) →
      lookupTx a.tx_history ctx.tx = none →
      a.apply ctx = some (.error (.NotFound ctx.tx), a)) ∧
    (∀ (a : Account) (ctx : Transaction) (d : DisputableTransaction), a.locked = false →
      ctx.type = .dispute → lookupTx a.tx_history ctx.tx = some d → d.disputed = true →
      a.apply ctx = some (.error (.AlreadyDisputed ctx.tx), a)) ∧
    (∀ (a : Account) (ctx : Transaction) (d : DisputableTransaction), a.locked = false →
      (ctx.type = .resolve ∨ ctx.type = .chargeback) →
      lookupTx a.tx_history ctx.tx = some d → d.disputed = false →
      a.apply ctx = some (.error (.NotDisputed ctx.tx), a)) := by
  refine ⟨?_, ?_, ?_⟩
  · intro a ctx hl hct hh
    rcases hct with hct | hct | hct <;>
      simp [Account.apply, Account.handle_disputes, hl, hct, hh]
  · intro a ctx d hl hct hh hd
    simp [Account.apply, Account.handle_disputes, hl, hct, hh, hd]
  · intro a ctx d hl hct hh hd
    rcases hct with hct | hct <;>
      simp [Account.apply, Account.handle_disputes, hl, hct, hh, hd]

/-- An account with one disputed and one undisputed deposit entry, used
by the C5 witness. -/
def c5A : Account :=
  ⟨1, 2, 3, 5, false,
    [(0, ⟨⟨.deposit, 1, 0, 3⟩, true⟩), (1, ⟨⟨.deposit, 1, 1, 2⟩, false⟩)]⟩

/-- Witness for C5 at concrete inputs. -/
theorem C5_dispute_reference_errors_witness :
    c5A.apply ⟨.dispute, 1, 9, 0⟩ = some (.error (.NotFound 9), c5A) ∧
    c5A.apply ⟨.dispute, 1, 0, 0⟩ = some (.error (.AlreadyDisputed 0), c5A) ∧
    c5A.apply ⟨.resolve, 1, 1, 0⟩ = some (.error (.NotDisputed 1), c5A) :=
  ⟨C5_dispute_reference_errors.1 c5A ⟨.dispute, 1, 9, 0⟩ rfl (Or.inl rfl) rfl,
   C5_dispute_reference_errors.2.1 c5A ⟨.dispute, 1, 0, 0⟩ ⟨⟨.deposit, 1, 0, 3⟩, true⟩
      rfl rfl rfl rfl,
   C5_dispute_reference_errors.2.2 c5A ⟨.resolve, 1, 1, 0⟩ ⟨⟨.deposit, 1, 1, 2⟩, false⟩
      rfl (Or.inl rfl) rfl rfl⟩

/-- C6: a withdrawal on an unlocked account with `available < tx.amount`
fails with `UnsufficientFunds(tx)` and changes nothing; with sufficient
funds and a fresh transaction id it decreases `available` and `total` by
`tx.amount` and stores the transaction in the history with
`disputed = false`. -/
theorem C6_withdrawal_semantics :
    (∀ (a : Account) (tx : Transaction), a.locked = false → tx.type = .withdrawal →
      a.available < tx.amount →
      a.apply tx = some (.error (.UnsufficientFunds tx), a)) ∧
    (∀ (a : Account) (tx : Transaction), a.locked = false → tx.type = .withdrawal →
      tx.amount ≤ a.available → lookupTx a.tx_history tx.tx = none →
      a.apply tx = some (.ok, { a with
        available := a.available - tx.amount, total := a.total - tx.amount,
        tx_history := (tx.tx, ⟨tx, false⟩) :: a.tx_history })) := by
  constructor
  · intro a tx hl ht hlt
    simp [Account.apply, hl, ht, not_le.mpr hlt]
  · intro a tx hl ht hle hfresh
    simp [Account.apply, Account.save_tx, hl, ht, hle, hfresh]

/-- The account used by the C6 witness. -/
def c6A : Account := ⟨1, 4, 0, 4, false, []⟩

/-- Witness for C6 at concrete inputs. -/
theorem C6_withdrawal_semantics_witness :
    c6A.apply ⟨.withdrawal, 1, 0, 5⟩ =
      some (.error (.UnsufficientFunds ⟨.withdrawal, 1, 0, 5⟩), c6A) ∧
    c6A.apply ⟨.withdrawal, 1, 0, 3⟩ = some (.ok, { c6A with
      available := c6A.available - (3 : ℚ), total := c6A.total - (3 : ℚ),
      tx_history := [(0, ⟨⟨.withdrawal, 1, 0, 3⟩, false⟩)] }) :=
  ⟨C6_withdrawal_semantics.1 c6A ⟨.withdrawal, 1, 0, 5⟩ rfl rfl (by norm_num [c6A]),
   C6_withdrawal_semantics.2 c6A ⟨.withdrawal, 1, 0, 3⟩ rfl rfl (by norm_num [c6A]) rfl⟩

/-- C7: after every (non-panicking) `Service.apply tx`, an account for
`tx.client` exists in the map; the transaction was delegated to the
previously stored account, or to `Account.new tx.client` (which has zero
balances and `locked = false`) when none existed — even when the
delegated `Account.apply` rejects the transaction — and the account-level
result is propagated to the caller unchanged. -/
theorem C7_service_creates_and_propagates (s : Service) (tx : Transaction)
    (r : TxResult) (s' : Service) (h : s.apply tx = some (r, s')) :
    (lookupAccount s'.accounts tx.client).isSome = true ∧
    ((lookupAccount s.accounts tx.client).getD (Account.new tx.client)).apply tx =
      some (r, (lookupAccount s'.accounts tx.client).getD (Account.new tx.client)) ∧
    ((Account.new tx.client).available = 0 ∧ (Account.new tx.client).held = 0 ∧
      (Account.new tx.client).total = 0 ∧ (Account.new tx.client).locked = false) := by
  unfold Service.apply at h
  rcases happ : ((lookupAccount s.accounts tx.client).getD (Account.new tx.client)).apply tx
    with _ | ⟨r1, a1⟩
  · rw [happ] at h; exact Option.noConfusion h
  · rw [happ] at h
    simp only [Option.some.injEq, Prod.mk.injEq] at h
    obtain ⟨h1, h2⟩ := h
    subst h1
    subst h2
    refine ⟨?_, ?_, rfl, rfl, rfl, rfl⟩
    · simp [lookupAccount_insertAccount]
    · rw [show lookupAccount (Service.mk (insertAccount s.accounts tx.client a1)).accounts
            tx.client = some a1 from lookupAccount_insertAccount, Option.getD_some]
      try exact happ

/-- The rejected first transaction of the C7 witness. -/
def c7Tx : Transaction := ⟨.withdrawal, 7, 0, 5⟩

/-- The service state after the C7 witness transaction: the account was
created with zero balances even though the withdrawal was rejected. -/
def c7S : Service := ⟨[(7, Account.new 7)]⟩

/-- Witness for C7 at a concrete input. -/
theorem C7_service_creates_and_propagates_witness :
    (lookupAccount c7S.accounts c7Tx.client).isSome = true ∧
    ((lookupAccount Service.new.accounts c7Tx.client).getD (Account.new c7Tx.client)).apply c7Tx =
      some (.error (.UnsufficientFunds c7Tx),
        (lookupAccount c7S.accounts c7Tx.client).getD (Account.new c7Tx.client)) ∧
    ((Account.new c7Tx.client).available = 0 ∧ (Account.new c7Tx.client).held = 0 ∧
      (Account.new c7Tx.client).total = 0 ∧ (Account.new c7Tx.client).locked = false) :=
  C7_service_creates_and_propagates Service.new c7Tx (.error (.UnsufficientFunds c7Tx)) c7S
    (by norm_num [Service.apply, Service.new, lookupAccount, insertAccount, Account.apply,
      Account.new, c7Tx, c7S])

/-- C8: amount parsing truncates toward zero to 4 decimal places
(`(val * 10^4).trunc() / 10^4`), serialization rounds to 4 decimal places
(`(val * 10^4).round() / 10^4`), and every value with at most 4
fractional digits — i.e. every integer multiple of `10^(-4)` — is
reproduced exactly by parse and by format (round-trip identity);
a value with more digits, such as `1.12341`, is truncated by parsing
and rounded by serialization. -/
theorem C8_amount_roundtrip (k : ℤ) :
    serde_amount.deserialize ((k : ℚ) / 10000) = (k : ℚ) / 10000 ∧
    serde_amount.serialize ((k : ℚ) / 10000) = (k : ℚ) / 10000 ∧
    serde_amount.deserialize (112341 / 100000) = 11234 / 10000 ∧
    serde_amount.serialize (112349 / 100000) = 11235 / 10000 := by
  have hmul : (k : ℚ) / 10000 * 10000 = (k : ℚ) := div_mul_cancel₀ _ (by norm_num)
  refine ⟨?_, ?_, ?_, ?_⟩
  · unfold serde_amount.deserialize truncQ
    rw [hmul]
    split
    · rw [Int.floor_intCast]
    · rw [Int.ceil_intCast]
  · unfold serde_amount.serialize roundHalfAwayQ
    rw [hmul]
    split
    · rw [Int.floor_int_add]
      norm_num
    · rw [show (k : ℚ) - 1 / 2 = -(1 / 2 : ℚ) + (k : ℚ) by ring, Int.ceil_add_int, Int.ceil_neg]
      norm_num
  · norm_num [serde_amount.deserialize, truncQ]
  · norm_num [serde_amount.serialize, roundHalfAwayQ]

/-- C9: applying a deposit (or a covered withdrawal) whose transaction id
is already in the history returns `AlreadyExist(tx.tx)`, yet `available`
and `total` have already been increased (respectively decreased) by
`tx.amount`: the account is mutated despite the returned error. -/
theorem C9_duplicate_id_mutates_despite_error :
    (∀ (a : Account) (tx : Transaction) (d : DisputableTransaction), a.locked = false →
      tx.type = .deposit → lookupTx a.tx_history tx.tx = some d →
      a.apply tx = some (.error (.AlreadyExist tx.tx), { a with
        available := a.available + tx.amount, total := a.total + tx.amount })) ∧
    (∀ (a : Account) (tx : Transaction) (d : DisputableTransaction), a.locked = false →
      tx.type = .withdrawal → tx.amount ≤ a.available → lookupTx a.tx_history tx.tx = some d →
      a.apply tx = some (.error (.AlreadyExist tx.tx), { a with
        available := a.available - tx.amount, total := a.total - tx.amount })) := by
  constructor
  · intro a tx d hl ht hdup
    simp [Account.apply, Account.save_tx, hl, ht, hdup]
  · intro a tx d hl ht hle hdup
    simp [Account.apply, Account.save_tx, hl, ht, hle, hdup]

/-- The account with an existing history entry for id 0 used by the C9
witness. -/
def c9A : Account := ⟨1, 5, 0, 5, false, [(0, ⟨⟨.deposit, 1, 0, 5⟩, false⟩)]⟩

/-- Witness for C9 at concrete inputs. -/
theorem C9_duplicate_id_mutates_despite_error_witness :
    c9A.apply ⟨.deposit, 1, 0, 2⟩ = some (.error (.AlreadyExist 0), { c9A with
      available := c9A.available + (2 : ℚ), total := c9A.total + (2 : ℚ) }) ∧
    c9A.apply ⟨.withdrawal, 1, 0, 2⟩ = some (.error (.AlreadyExist 0), { c9A with
      available := c9A.available - (2 : ℚ), total := c9A.total - (2 : ℚ) }) :=
  ⟨C9_duplicate_id_mutates_despite_error.1 c9A ⟨.deposit, 1, 0, 2⟩ ⟨⟨.deposit, 1, 0, 5⟩, false⟩
      rfl rfl rfl,
   C9_duplicate_id_mutates_despite_error.2 c9A ⟨.withdrawal, 1, 0, 2⟩ ⟨⟨.deposit, 1, 0, 5⟩, false⟩
      rfl rfl (by norm_num [c9A]) rfl⟩

end AssetsExchange
